import Mathlib

/-!
Verification of the Dayflow Windows capture-to-timeline pipeline
(`dayflow_windows`): a shallow embedding of the segmenter
(`timeline.py`), the persistence layer (`database.py`), the capture
scheduler's interval handling (`capture.py`) and the AI-output
validation pipeline (`ai.py`), together with proofs of the spec claims.

Modelling conventions:
- Python strings are modelled as `List Char` (`PyStr`); Lean's packed
  `String` does not reduce well in the kernel.  `str.strip`,
  `str.lower`, `str.split`, `str.replace`, slicing and `find`/`rfind`
  are reimplemented on `List Char` following their Python semantics
  (restricted to the ASCII character classes the data uses).
- Timestamps (`datetime` values) are modelled as whole seconds
  (`Int`).  All timestamp arithmetic in the source is at second
  granularity (`timedelta(seconds=...)`, `int(...total_seconds())`),
  and SQLite's lexicographic ordering of ISO-8601 text timestamps
  agrees with the numeric ordering.
- SQLite tables are modelled as Lean lists of row structures; a query
  with `ORDER BY` is modelled with the stable `List.insertionSort`
  (extensionally the sort SQLite/Python perform); a table with a
  `PRIMARY KEY` upsert (`ai_daily_summaries`) is modelled as a finite
  map `PyStr → Option _`.
- Fallible Python code (`ValueError` from `int(...)`) is modelled with
  `Except`.
-/

namespace Dayflow

/-- Python strings, modelled as character lists. -/
abbrev PyStr := List Char

/-- The whitespace class used by Python's `str.strip`/`str.split`
(ASCII fragment). -/
def pyWs (c : Char) : Bool :=
  c = ' ' || c = '\t' || c = '\n' || c = '\r' || c = '\x0b' || c = '\x0c'

/-- Python `str.strip()`: drop leading and trailing whitespace. -/
def pyStrip (s : PyStr) : PyStr :=
  ((s.dropWhile pyWs).reverse.dropWhile pyWs).reverse

/-- Accumulator pass for Python `str.split()` (split on whitespace
runs, no empty items). -/
def pyWordsAux : PyStr → PyStr → List PyStr
  | [], acc => if acc = [] then [] else [acc.reverse]
  | c :: cs, acc =>
    if pyWs c then
      if acc = [] then pyWordsAux cs [] else acc.reverse :: pyWordsAux cs []
    else
      pyWordsAux cs (c :: acc)

/-- Python `str.split()` with no argument. -/
def pyWords (s : PyStr) : List PyStr := pyWordsAux s []

/-- Python `str.lower()` (ASCII fragment). -/
def pyLower (s : PyStr) : PyStr := s.map Char.toLower

/-- Embeds `" ".join(...)`. -/
def joinSpace (parts : List PyStr) : PyStr := List.intercalate [' '] parts

/-- Embeds `timeline._normalize`: `" ".join(value.lower().split())`. -/
def _normalize (value : PyStr) : PyStr := joinSpace (pyWords (pyLower value))

/-- Embeds `(value or "").strip() or default`: strip, and fall back to a
default when the result is empty (`None` inputs are out of the model;
they behave as `""`). -/
def stripOr (value dflt : PyStr) : PyStr :=
  let v := pyStrip value
  if v = [] then dflt else v

/-- A row of the `screenshots` table / `models.ScreenshotRecord`. -/
structure ScreenshotRecord where
  id : Nat
  captured_at : Int
  file_path : PyStr
  file_size : Int
  window_title : PyStr
  process_name : PyStr
deriving DecidableEq, Repr

/-- Embeds `models.TimelineCard` (the segmenter output).  The source field
`end` is a Lean keyword and is called `stop` here. -/
structure TimelineCard where
  start : Int
  stop : Int
  duration_seconds : Int
  process_name : PyStr
  window_title : PyStr
  screenshot_count : Nat
deriving DecidableEq, Repr

/-- Embeds `fallback = max(1, int(round(fallback_interval_seconds)))`
(timeline.py line 17), at whole-second granularity. -/
def fallbackOf (fallback_interval_seconds : Int) : Int :=
  max 1 fallback_interval_seconds

/-- Embeds `max_gap = max(30, fallback * 2)` (timeline.py line 18). -/
def maxGapOf (fallback : Int) : Int := max 30 (fallback * 2)

/-- Embeds `merge_tolerance = timedelta(seconds=5)` (timeline.py line 19). -/
def mergeTolerance : Int := 5

/-- Embeds `timeline._segment_duration_seconds`. -/
def _segment_duration_seconds (start : Int) (next_timestamp : Option Int)
    (fallback max_gap : Int) : Int :=
  match next_timestamp with
  | none => fallback
  | some t =>
    let raw_seconds := t - start
    if raw_seconds ≤ 0 then fallback else min raw_seconds max_gap

/-- One entry of the `grouped` list inside `build_timeline_cards`. -/
structure SegGroup where
  key : PyStr × PyStr
  start : Int
  stop : Int
  process_name : PyStr
  window_title : PyStr
  screenshot_count : Nat
deriving DecidableEq, Repr

/-- The default strings of timeline.py lines 28-29. -/
def strUnknown : PyStr := ("unknown").toList

/-- Default window title (timeline.py line 29). -/
def strUnknownWindow : PyStr := ("Unknown Window").toList

/-- The stripped-with-default process name of a sample
(timeline.py line 28). -/
def sampleProcess (record : ScreenshotRecord) : PyStr :=
  stripOr record.process_name strUnknown

/-- The stripped-with-default window title of a sample
(timeline.py line 29). -/
def sampleTitle (record : ScreenshotRecord) : PyStr :=
  stripOr record.window_title strUnknownWindow

/-- The normalized `(process, title)` grouping key of a sample
(timeline.py line 30). -/
def sampleKey (record : ScreenshotRecord) : PyStr × PyStr :=
  (_normalize (sampleProcess record), _normalize (sampleTitle record))

/-- The segment end computed for a sample given the rest of the
ordered sequence (timeline.py lines 24-26). -/
def sampleEnd (record : ScreenshotRecord) (rest : List ScreenshotRecord)
    (fallback max_gap : Int) : Int :=
  record.captured_at +
    _segment_duration_seconds record.captured_at
      (rest.head?.map (fun r => r.captured_at)) fallback max_gap

/-- Merging a sample into the open segment (timeline.py lines 33-34):
the end becomes `max(current end, new end)` and the member count grows
by one. -/
def mergedGroup (g : SegGroup) (stop : Int) : SegGroup :=
  { g with stop := max g.stop stop, screenshot_count := g.screenshot_count + 1 }

/-- A freshly opened segment for a sample (timeline.py lines 37-46). -/
def freshGroup (record : ScreenshotRecord) (rest : List ScreenshotRecord)
    (fallback max_gap : Int) : SegGroup :=
  { key := sampleKey record
    start := record.captured_at
    stop := sampleEnd record rest fallback max_gap
    process_name := sampleProcess record
    window_title := sampleTitle record
    screenshot_count := 1 }

/-- The grouping loop of `build_timeline_cards` (timeline.py lines
21-46).  The accumulator keeps the groups in reverse order, so the
open segment (`grouped[-1]`) is its head. -/
def buildGroupsAux (fallback max_gap : Int) :
    List ScreenshotRecord → List SegGroup → List SegGroup
  | [], acc => acc.reverse
  | record :: rest, acc =>
    match acc with
    | g :: gs =>
      if sampleKey record = g.key ∧
          record.captured_at ≤ g.stop + mergeTolerance then
        buildGroupsAux fallback max_gap rest
          (mergedGroup g (sampleEnd record rest fallback max_gap) :: gs)
      else
        buildGroupsAux fallback max_gap rest
          (freshGroup record rest fallback max_gap :: g :: gs)
    | [] =>
      buildGroupsAux fallback max_gap rest
        [freshGroup record rest fallback max_gap]

/-- Embeds `sorted(records, key=lambda row: row.captured_at)`: the sort key. -/
def recordLe (a b : ScreenshotRecord) : Prop := a.captured_at ≤ b.captured_at

instance : DecidableRel recordLe :=
  fun a b => inferInstanceAs (Decidable (a.captured_at ≤ b.captured_at))

/-- Embeds `timeline.build_timeline_cards`. -/
def build_timeline_cards (records : List ScreenshotRecord)
    (fallback_interval_seconds : Int := 10) : List TimelineCard :=
  if records = [] then []
  else
    let ordered := List.insertionSort recordLe records
    let fallback := fallbackOf fallback_interval_seconds
    let max_gap := maxGapOf fallback
    (buildGroupsAux fallback max_gap ordered []).map fun g =>
      { start := g.start
        stop := g.stop
        duration_seconds := max 1 (g.stop - g.start)
        process_name := g.process_name
        window_title := g.window_title
        screenshot_count := g.screenshot_count }

/-! ## database.py -/

/-- A row of the `ai_timeline_cards` table. -/
structure CardRow where
  id : Nat
  day : PyStr
  start_time : PyStr
  end_time : PyStr
  title : PyStr
  summary : PyStr
  category : PyStr
deriving DecidableEq, Repr

/-- Embeds `models.AITimelineCard`.  The source field `end` is a Lean keyword
and is called `stop` here. -/
structure AITimelineCard where
  id : Nat
  day : PyStr
  start : PyStr
  stop : PyStr
  title : PyStr
  summary : PyStr
  category : PyStr
deriving DecidableEq, Repr

/-- One `dict[str, str]` card passed to
`replace_ai_timeline_for_day`; `card.get(k, "")` on a missing key is
modelled by the field holding `""`.  The source key `end` is a Lean
keyword and is called `stop` here. -/
structure CardInput where
  start : PyStr
  stop : PyStr
  title : PyStr
  summary : PyStr
  category : PyStr
deriving DecidableEq, Repr

/-- The database state (`DayflowWindowsDatabase`): the tables the
claims touch.  `screenshots` and `ai_timeline_cards` are multisets of
rows carried as lists; `ai_daily_summaries` has `day` as its primary
key and is carried as a finite map `day ↦ (summary, updated_at)`.
`next_card_id` models the `AUTOINCREMENT` counter of
`ai_timeline_cards`. -/
structure DayflowDB where
  screenshots : List ScreenshotRecord
  ai_timeline_cards : List CardRow
  next_card_id : Nat
  ai_daily_summaries : PyStr → Option (PyStr × PyStr)

/-- The row built for one inserted card (database.py lines 184-200):
every field is stored stripped. -/
def cardRowOf (day : PyStr) (id : Nat) (card : CardInput) : CardRow :=
  { id := id
    day := day
    start_time := pyStrip card.start
    end_time := pyStrip card.stop
    title := pyStrip card.title
    summary := pyStrip card.summary
    category := pyStrip card.category }

/-- The `INSERT` loop of `replace_ai_timeline_for_day`: consecutive
`AUTOINCREMENT` ids starting at `nextId`. -/
def insertCardRows (day : PyStr) : Nat → List CardInput → List CardRow
  | _, [] => []
  | nextId, card :: rest =>
    cardRowOf day nextId card :: insertCardRows day (nextId + 1) rest

/-- Embeds `DayflowWindowsDatabase.replace_ai_timeline_for_day` (database.py
lines 175-211): in one transaction, delete the day's cards, insert the
new cards, and upsert the day's summary.  `now` is the
`datetime.now()` text. -/
def replace_ai_timeline_for_day (db : DayflowDB) (day : PyStr)
    (cards : List CardInput) (daily_summary : PyStr) (now : PyStr) :
    DayflowDB :=
  { screenshots := db.screenshots
    ai_timeline_cards :=
      db.ai_timeline_cards.filter (fun r => r.day ≠ day) ++
        insertCardRows day db.next_card_id cards
    next_card_id := db.next_card_id + cards.length
    ai_daily_summaries := fun d =>
      if d = day then some (pyStrip daily_summary, now)
      else db.ai_daily_summaries d }

/-- Lexicographic order on `PyStr` by character code: SQLite's binary
ordering of `TEXT` values (ASCII fragment). -/
def pyStrLt : PyStr → PyStr → Bool
  | [], [] => false
  | [], _ :: _ => true
  | _ :: _, [] => false
  | a :: as, b :: bs =>
    if a.toNat < b.toNat then true
    else if b.toNat < a.toNat then false
    else pyStrLt as bs

/-- The `ORDER BY start_time ASC, id ASC` key of
`list_ai_timeline_for_day`. -/
def cardRowLe (a b : CardRow) : Prop :=
  pyStrLt a.start_time b.start_time = true ∨
    (a.start_time = b.start_time ∧ a.id ≤ b.id)

instance : DecidableRel cardRowLe :=
  fun a b =>
    inferInstanceAs (Decidable (pyStrLt a.start_time b.start_time = true ∨
      (a.start_time = b.start_time ∧ a.id ≤ b.id)))

/-- The `AITimelineCard` built from a selected row (database.py lines
224-235). -/
def rowToCard (r : CardRow) : AITimelineCard :=
  { id := r.id, day := r.day, start := r.start_time, stop := r.end_time
    title := r.title, summary := r.summary, category := r.category }

/-- Embeds `DayflowWindowsDatabase.list_ai_timeline_for_day` (database.py
lines 213-235). -/
def list_ai_timeline_for_day (db : DayflowDB) (day : PyStr) :
    List AITimelineCard :=
  (List.insertionSort cardRowLe
      (db.ai_timeline_cards.filter (fun r => r.day = day))).map rowToCard

/-- Embeds `DayflowWindowsDatabase.get_ai_daily_summary` (database.py lines
237-245). -/
def get_ai_daily_summary (db : DayflowDB) (day : PyStr) : PyStr :=
  match db.ai_daily_summaries day with
  | some e => e.1
  | none => []

/-- Embeds `DayflowWindowsDatabase.total_screenshot_bytes`
(`SELECT COALESCE(SUM(file_size), 0) FROM screenshots`). -/
def total_screenshot_bytes (db : DayflowDB) : Int :=
  (db.screenshots.map (fun r => r.file_size)).sum

/-- The `ORDER BY captured_at ASC` key used by
`enforce_storage_limit`. -/
def shotLe (a b : ScreenshotRecord) : Prop := a.captured_at ≤ b.captured_at

instance : DecidableRel shotLe :=
  fun a b => inferInstanceAs (Decidable (a.captured_at ≤ b.captured_at))

/-- The deletion loop of `enforce_storage_limit` (database.py lines
404-419) over the `captured_at`-sorted rows: while `current >
max_bytes`, delete the head row (file deletion failures are tolerated
and do not stop the sweep).  Returns the remaining rows, the number of
deleted rows and the bytes freed. -/
def dropOldest (max_bytes : Int) :
    List ScreenshotRecord → Int → List ScreenshotRecord × Nat × Int
  | [], _ => ([], 0, 0)
  | row :: rest, current =>
    if current ≤ max_bytes then (row :: rest, 0, 0)
    else
      let out := dropOldest max_bytes rest (current - row.file_size)
      (out.1, out.2.1 + 1, out.2.2 + row.file_size)

/-- Embeds `DayflowWindowsDatabase.enforce_storage_limit` (database.py lines
383-423).  The resulting table contents are represented by the list of
remaining rows (row order in a table is immaterial). -/
def enforce_storage_limit (db : DayflowDB) (max_bytes : Int) :
    DayflowDB × Nat × Int :=
  if max_bytes ≤ 0 then (db, 0, 0)
  else
    let current := (db.screenshots.map (fun r => r.file_size)).sum
    if current ≤ max_bytes then (db, 0, 0)
    else
      let rows := List.insertionSort shotLe db.screenshots
      let out := dropOldest max_bytes rows current
      ({ db with screenshots := out.1 }, out.2.1, out.2.2)

/-! ## capture.py -/

/-- The interval actually installed by `ScreenCaptureService.start`
(capture.py line 40): `interval_seconds = max(1.0, float(interval_seconds))`.
Modelled over `ℚ` (the float is an exact small decimal here). -/
def start_effective_interval (interval_seconds : ℚ) : ℚ :=
  max 1 interval_seconds

/-! ## ai.py

The JSON values an AI response decodes to.  Numbers are modelled as
integers (no card field is numeric; fractional literals are outside
the model and are treated as parse failures). -/

inductive Json where
  | null
  | bool (b : Bool)
  | num (n : Int)
  | str (s : PyStr)
  | arr (xs : List Json)
  | obj (kvs : List (PyStr × Json))

/-- The opening brace character (written by code to survive
string-literal linting). -/
def lbrace : Char := '\x7b'

/-- The closing brace character. -/
def rbrace : Char := '\x7d'

/-- The single-quote character. -/
def squote : Char := '\x27'

/-- JSON insignificant whitespace. -/
def jsonWs (c : Char) : Bool := c = ' ' || c = '\t' || c = '\n' || c = '\r'

/-- Skip insignificant whitespace. -/
def skipWs (s : PyStr) : PyStr := s.dropWhile jsonWs

/-- Hexadecimal digit value. -/
def hexVal (c : Char) : Option Nat :=
  if '0' ≤ c ∧ c ≤ '9' then some (c.toNat - 48)
  else if 'a' ≤ c ∧ c ≤ 'f' then some (c.toNat - 87)
  else if 'A' ≤ c ∧ c ≤ 'F' then some (c.toNat - 55)
  else none

/-- Single-character JSON string escapes. -/
def escChar (c : Char) : Option Char :=
  if c = '"' then some '"'
  else if c = '\\' then some '\\'
  else if c = '/' then some '/'
  else if c = 'b' then some '\x08'
  else if c = 'f' then some '\x0c'
  else if c = 'n' then some '\n'
  else if c = 'r' then some '\r'
  else if c = 't' then some '\t'
  else none

/-- Parse a JSON string body (after the opening quote) up to its
closing quote.  Unescaped control characters are rejected, as by
`json.loads` in strict mode; `\uXXXX` maps to the code point
(surrogate pairs are outside the model). -/
def parseStringBody : Nat → PyStr → Option (PyStr × PyStr)
  | 0, _ => none
  | _, [] => none
  | fuel + 1, c :: cs =>
    if c.toNat < 32 then none
    else if c = '"' then some ([], cs)
    else if c = '\\' then
      match cs with
      | 'u' :: h1 :: h2 :: h3 :: h4 :: rest =>
        match hexVal h1, hexVal h2, hexVal h3, hexVal h4 with
        | some a, some b, some c2, some d =>
          (parseStringBody fuel rest).map
            (fun p => (Char.ofNat (((a * 16 + b) * 16 + c2) * 16 + d) :: p.1, p.2))
        | _, _, _, _ => none
      | e :: rest =>
        match escChar e with
        | some ch => (parseStringBody fuel rest).map (fun p => (ch :: p.1, p.2))
        | none => none
      | [] => none
    else
      (parseStringBody fuel cs).map (fun p => (c :: p.1, p.2))

/-- Decimal value of a digit string. -/
def digitsToNat (ds : PyStr) : Nat :=
  ds.foldl (fun acc c => acc * 10 + (c.toNat - 48)) 0

/-- Parse a JSON number.  Only the integer grammar
(`-? (0 | [1-9][0-9]*)`) is modelled; a fraction or exponent suffix is
outside the model and fails. -/
def parseNumber (s : PyStr) : Option (Json × PyStr) :=
  let p := match s with
    | '-' :: t => (true, t)
    | _ => (false, s)
  match p.2 with
  | [] => none
  | d :: _ =>
    if d.isDigit then
      let ds := p.2.takeWhile Char.isDigit
      let rest := p.2.dropWhile Char.isDigit
      if d = '0' ∧ 1 < ds.length then none
      else
        let n : Int := if p.1 then -(digitsToNat ds : Int) else (digitsToNat ds : Int)
        match rest with
        | c :: _ => if c = '.' ∨ c = 'e' ∨ c = 'E' then none else some (Json.num n, rest)
        | [] => some (Json.num n, [])
    else none

/-- Parse the items of a non-empty JSON array given a parser for one
value; consumes through the closing bracket. -/
def parseItemsWith (pv : PyStr → Option (Json × PyStr)) :
    Nat → PyStr → Option (List Json × PyStr)
  | 0, _ => none
  | fuel + 1, s =>
    match pv s with
    | none => none
    | some (v, rest) =>
      match skipWs rest with
      | ',' :: rest2 => (parseItemsWith pv fuel rest2).map (fun p => (v :: p.1, p.2))
      | ']' :: rest2 => some ([v], rest2)
      | _ => none

/-- Parse the members of a non-empty JSON object given a parser for
one value; consumes through the closing brace. -/
def parseObjItemsWith (pv : PyStr → Option (Json × PyStr)) :
    Nat → PyStr → Option (List (PyStr × Json) × PyStr)
  | 0, _ => none
  | fuel + 1, s =>
    match skipWs s with
    | '"' :: cs =>
      match parseStringBody (cs.length + 1) cs with
      | none => none
      | some (k, rest) =>
        match skipWs rest with
        | ':' :: rest2 =>
          match pv rest2 with
          | none => none
          | some (v, rest3) =>
            match skipWs rest3 with
            | ',' :: rest4 =>
              (parseObjItemsWith pv fuel rest4).map (fun p => ((k, v) :: p.1, p.2))
            | c :: rest4 => if c = rbrace then some ([(k, v)], rest4) else none
            | [] => none
        | _ => none
    | _ => none

/-- Recursive-descent JSON value parser; the fuel bounds the nesting
depth. -/
def parseJsonValue : Nat → PyStr → Option (Json × PyStr)
  | 0, _ => none
  | fuel + 1, s =>
    match skipWs s with
    | [] => none
    | c :: cs =>
      if c = '"' then
        (parseStringBody (cs.length + 1) cs).map (fun p => (Json.str p.1, p.2))
      else if c = '[' then
        match skipWs cs with
        | [] => none
        | d :: rest =>
          if d = ']' then some (Json.arr [], rest)
          else
            (parseItemsWith (parseJsonValue fuel) (d :: rest).length (d :: rest)).map
              (fun p => (Json.arr p.1, p.2))
      else if c = lbrace then
        match skipWs cs with
        | [] => none
        | d :: rest =>
          if d = rbrace then some (Json.obj [], rest)
          else
            (parseObjItemsWith (parseJsonValue fuel) (d :: rest).length (d :: rest)).map
              (fun p => (Json.obj p.1, p.2))
      else if c = 't' then
        match cs with
        | 'r' :: 'u' :: 'e' :: rest => some (Json.bool true, rest)
        | _ => none
      else if c = 'f' then
        match cs with
        | 'a' :: 'l' :: 's' :: 'e' :: rest => some (Json.bool false, rest)
        | _ => none
      else if c = 'n' then
        match cs with
        | 'u' :: 'l' :: 'l' :: rest => some (Json.null, rest)
        | _ => none
      else parseNumber (c :: cs)

/-- Embeds `json.loads`: parse one JSON value and require only whitespace
after it. -/
def json_loads (s : PyStr) : Option Json :=
  match parseJsonValue (s.length + 1) s with
  | some (j, rest) => if skipWs rest = [] then some j else none
  | none => none

/-- Embeds `str.find(c)`: first index or `-1`. -/
def pyFindChar (s : PyStr) (c : Char) : Int :=
  match s.findIdx? (fun x => x = c) with
  | some i => (i : Int)
  | none => -1

/-- Embeds `str.rfind(c)`: last index or `-1`. -/
def pyRFindChar (s : PyStr) (c : Char) : Int :=
  match s.reverse.findIdx? (fun x => x = c) with
  | some i => ((s.length - 1 - i : Nat) : Int)
  | none => -1

/-- Python slice `s[a:b]`. -/
def pySlice (s : PyStr) (a b : Nat) : PyStr := (s.take b).drop a

/-- The substring `trimmed[start : end + 1]` between the first
`'\x7b'` and the last `'\x7d'`. -/
def braceSlice (t : PyStr) : PyStr :=
  pySlice t (pyFindChar t lbrace).toNat ((pyRFindChar t rbrace).toNat + 1)

/-- Embeds `ai._parse_ai_json` (ai.py lines 402-416): a raised `RuntimeError`
is the `Except.error` case. -/
def _parse_ai_json (text : PyStr) : Except PyStr Json :=
  let trimmed := pyStrip text
  if trimmed = [] then .error (("AI response was empty.").toList)
  else
    match json_loads trimmed with
    | some j => .ok j
    | none =>
      let start := pyFindChar trimmed lbrace
      let stop := pyRFindChar trimmed rbrace
      if start = -1 ∨ stop = -1 ∨ start ≥ stop then
        .error (("AI response did not contain valid JSON.").toList)
      else
        match json_loads (pySlice trimmed start.toNat (stop.toNat + 1)) with
        | some j => .ok j
        | none => .error (("AI response contained invalid JSON.").toList)

/-- Decimal digit character. -/
def digitChar (d : Nat) : Char := Char.ofNat (48 + d)

/-- Decimal rendering of a natural number (fueled so it reduces in the
kernel). -/
def natToCharsAux : Nat → Nat → PyStr
  | 0, _ => []
  | fuel + 1, n =>
    if n < 10 then [digitChar n]
    else natToCharsAux fuel (n / 10) ++ [digitChar (n % 10)]

/-- Decimal rendering of a natural number. -/
def natToChars (n : Nat) : PyStr := natToCharsAux (n + 1) n

/-- Decimal rendering of an integer. -/
def intToChars (n : Int) : PyStr :=
  if n < 0 then '-' :: natToChars (-n).toNat else natToChars n.toNat

mutual

/-- Python `repr` of a decoded JSON value (quote escaping inside
rendered strings is outside the model — no claim exercises
container-valued card fields). -/
def pyRepr : Json → PyStr
  | .null => ("None").toList
  | .bool true => ("True").toList
  | .bool false => ("False").toList
  | .num n => intToChars n
  | .str s => squote :: (s ++ [squote])
  | .arr xs => '[' :: (pyReprItems xs ++ [']'])
  | .obj kvs => lbrace :: (pyReprMembers kvs ++ [rbrace])

/-- Comma-separated `repr`s of array items. -/
def pyReprItems : List Json → PyStr
  | [] => []
  | [x] => pyRepr x
  | x :: y :: xs => pyRepr x ++ ',' :: ' ' :: pyReprItems (y :: xs)

/-- Comma-separated `repr`s of object members. -/
def pyReprMembers : List (PyStr × Json) → PyStr
  | [] => []
  | [kv] => squote :: (kv.1 ++ [squote, ':', ' ']) ++ pyRepr kv.2
  | kv :: kw :: kvs =>
    squote :: (kv.1 ++ [squote, ':', ' ']) ++ pyRepr kv.2 ++
      ',' :: ' ' :: pyReprMembers (kw :: kvs)

end

/-- Python `str()` of a decoded JSON value. -/
def pyStr (j : Json) : PyStr :=
  match j with
  | .str s => s
  | .null => ("None").toList
  | .bool true => ("True").toList
  | .bool false => ("False").toList
  | .num n => intToChars n
  | .arr xs => pyRepr (Json.arr xs)
  | .obj kvs => pyRepr (Json.obj kvs)

/-- Python `dict.get(k, dflt)` on a decoded JSON object; on duplicate
keys `json.loads` keeps the last occurrence. -/
def dictGet (kvs : List (PyStr × Json)) (k : PyStr) (dflt : Json) : Json :=
  match kvs.reverse.find? (fun kv => kv.1 = k) with
  | some kv => kv.2
  | none => dflt

/-- Embeds `parsed.get(k, dflt)`.  The callers only apply it to decoded
objects; a non-dict receiver (a Python `AttributeError`) is outside
the claims and returns the default here. -/
def jsonGet (j : Json) (k : PyStr) (dflt : Json) : Json :=
  match j with
  | .obj kvs => dictGet kvs k dflt
  | _ => dflt

/-- Embeds `str(parsed.get("daily_summary", "")).strip()` (ai.py line 63). -/
def generate_daily_summary (parsed : Json) : PyStr :=
  pyStrip (pyStr (jsonGet parsed (("daily_summary").toList) (Json.str [])))

/-- Embeds `str.isdigit` (ASCII fragment; Python also accepts some Unicode
digit characters, outside the model). -/
def pyIsDigit (s : PyStr) : Bool := s ≠ [] && s.all Char.isDigit

/-- Embeds `value.replace(":", "")`: remove every colon. -/
def pyRemoveColons (s : PyStr) : PyStr := s.filter (fun x => x ≠ ':')

/-- Python `int(s)` for the strings `_norm_hhmm` feeds it (characters
drawn from digits and `':'`): all-digit strings parse, anything else
raises `ValueError` (`none`). -/
def pyIntDigits? (s : PyStr) : Option Nat :=
  if pyIsDigit s then some (digitsToNat s) else none

/-- Embeds `f"....:02d"` zero-padding to two digits. -/
def fmt2 (n : Nat) : PyStr := if n < 10 then '0' :: natToChars n else natToChars n

/-- Embeds `ai._norm_hhmm` (ai.py lines 445-452).  A `ValueError` escaping
from `int(...)` is the `Except.error` case. -/
def _norm_hhmm (value : PyStr) : Except PyStr PyStr :=
  let v := pyStrip value
  if v.length = 5 ∧ v.get? 2 = some ':' ∧ pyIsDigit (pyRemoveColons v) then
    match pyIntDigits? (v.take 2), pyIntDigits? (v.drop 3) with
    | some hh, some mm =>
      if hh ≤ 23 ∧ mm ≤ 59 then .ok (fmt2 hh ++ ':' :: fmt2 mm) else .ok []
    | _, _ => .error (("ValueError").toList)
  else .ok []

/-- The `"Other"` category default. -/
def strOther : PyStr := ("Other").toList

/-- The per-entry loop of `ai._normalize_cards` (ai.py lines 423-442).
Field evaluation order follows the source (`start`, `end`, `title`,
`summary`, `category`, then the required-field test); an exception
from either `_norm_hhmm` aborts the whole call. -/
def normalizeCardList : List Json → Except PyStr (List CardInput)
  | [] => .ok []
  | entry :: rest =>
    match entry with
    | .obj kvs =>
      match _norm_hhmm (pyStrip (pyStr (dictGet kvs (("start").toList) (Json.str [])))) with
      | .error e => .error e
      | .ok start =>
        match _norm_hhmm (pyStrip (pyStr (dictGet kvs (("end").toList) (Json.str [])))) with
        | .error e => .error e
        | .ok stop =>
          let title := pyStrip (pyStr (dictGet kvs (("title").toList) (Json.str [])))
          let summary := pyStrip (pyStr (dictGet kvs (("summary").toList) (Json.str [])))
          let category0 := pyStrip (pyStr (dictGet kvs (("category").toList) (Json.str strOther)))
          let category := if category0 = [] then strOther else category0
          match normalizeCardList rest with
          | .error e => .error e
          | .ok tail =>
            if start = [] ∨ stop = [] ∨ title = [] then .ok tail
            else
              .ok ({ start := start, stop := stop, title := title
                     summary := summary, category := category } :: tail)
    | _ => normalizeCardList rest

/-- Embeds `ai._normalize_cards` (ai.py lines 419-442). -/
def _normalize_cards (raw_cards : Json) : Except PyStr (List CardInput) :=
  match raw_cards with
  | .arr entries => normalizeCardList entries
  | _ => .ok []

/-- Embeds `rows[::step]` (fueled so it reduces in the kernel; the fuel is
the list length, which bounds the number of strides). -/
def everyNthAux {α : Type} (k : Nat) : Nat → List α → List α
  | 0, _ => []
  | _, [] => []
  | fuel + 1, x :: xs => x :: everyNthAux k fuel (xs.drop (k - 1))

/-- Embeds `rows[::step]` for `step = k ≥ 1`. -/
def everyNth {α : Type} (xs : List α) (k : Nat) : List α :=
  everyNthAux k xs.length xs

/-- Lines 305-306 of ai.py: `if sampled and sampled[-1].id !=
rows[-1].id: sampled[-1] = rows[-1]` — replace the last kept element
by the last row when their ids differ (no-op on an empty selection). -/
def lastFix (sampled rows : List ScreenshotRecord) : List ScreenshotRecord :=
  match sampled.getLast?, rows.getLast? with
  | some sl, some rl => if sl.id ≠ rl.id then sampled.dropLast ++ [rl] else sampled
  | _, _ => sampled

/-- Embeds `ai._sample_screenshots` (ai.py lines 298-307). -/
def _sample_screenshots (rows : List ScreenshotRecord) (max_items : Nat) :
    List ScreenshotRecord :=
  if rows.length ≤ max_items then rows
  else
    let step := max 1 (rows.length / max_items)
    let sampled0 := everyNth rows step
    let sampled := if max_items < sampled0.length then sampled0.take max_items else sampled0
    lastFix sampled rows

/-! ## Concrete fixtures used by the examples and witnesses -/

/-- A sample with fixed window/process metadata. -/
def mkSample (i : Nat) (t : Int) : ScreenshotRecord :=
  { id := i, captured_at := t, file_path := [], file_size := 0,
    window_title := ("win").toList, process_name := ("app").toList }

/-- A sample with a given capture time and media size. -/
def mkShot (i : Nat) (t size : Int) : ScreenshotRecord :=
  { id := i, captured_at := t, file_path := [], file_size := size,
    window_title := ("win").toList, process_name := ("app").toList }

/-- A database with no rows. -/
def emptyDB : DayflowDB :=
  { screenshots := [], ai_timeline_cards := [], next_card_id := 1,
    ai_daily_summaries := fun _ => none }

/-- A database holding three 5-byte screenshots. -/
def dbShots : DayflowDB :=
  { screenshots := [mkShot 1 1 5, mkShot 2 2 5, mkShot 3 3 5],
    ai_timeline_cards := [], next_card_id := 1,
    ai_daily_summaries := fun _ => none }

/-- A normalized card input. -/
def cardW : CardInput :=
  { start := ("09:00").toList, stop := ("09:30").toList,
    title := ("Work").toList, summary := ("x").toList,
    category := ("Coding").toList }

/-- A day key. -/
def dayA : PyStr := ("2026-02-11").toList

/-- Another day key. -/
def dayB : PyStr := ("2026-02-12").toList

/-- The raw AI text of the spec's JSON-extraction example. -/
def exampleText : PyStr :=
  ("Here is result:\n\x7b\"cards\": [], \"daily_summary\": \"ok\"\x7d\n").toList

/-- What the example text decodes to. -/
def exampleParsed : Json :=
  Json.obj [(("cards").toList, Json.arr []),
            (("daily_summary").toList, Json.str (("ok").toList))]

/-- A card whose `start` makes `int(value[3:])` raise `ValueError`
inside `_norm_hhmm` (length 5, `value[2] == ':'`, all non-colon
characters digits, but a second colon at index 4). -/
def crashCard : Json :=
  Json.obj [(("start").toList, Json.str (("12:3:").toList)),
            (("end").toList, Json.str (("09:30").toList)),
            (("title").toList, Json.str (("Bad").toList))]

/-- The spec's valid example card. -/
def validCard : Json :=
  Json.obj [(("start").toList, Json.str (("09:00").toList)),
            (("end").toList, Json.str (("09:30").toList)),
            (("title").toList, Json.str (("Work").toList))]

/-- The spec's dropped example card (`start="bad"`). -/
def badCard : Json :=
  Json.obj [(("start").toList, Json.str (("bad").toList)),
            (("end").toList, Json.str (("09:30").toList)),
            (("title").toList, Json.str (("Bad").toList))]

/-- What `validCard` normalizes to. -/
def validCardOut : CardInput :=
  { start := ("09:00").toList, stop := ("09:30").toList,
    title := ("Work").toList, summary := [], category := strOther }

/-- Twenty-one samples with distinct ids at one-second spacing. -/
def wrows : List ScreenshotRecord :=
  (List.range 21).map (fun i => mkSample i (i : Int))

/-- The title/start/end/category projection of a read-back card. -/
def cardFields (c : AITimelineCard) : PyStr × PyStr × PyStr × PyStr :=
  (c.title, c.start, c.stop, c.category)

/-- The title/start/end/category projection of an input card. -/
def inputFields (c : CardInput) : PyStr × PyStr × PyStr × PyStr :=
  (c.title, c.start, c.stop, c.category)

/-- The stripped title/start/end/category projection of an input
card (what the database stores). -/
def stripFields (c : CardInput) : PyStr × PyStr × PyStr × PyStr :=
  (pyStrip c.title, pyStrip c.start, pyStrip c.stop, pyStrip c.category)

/-- Total media bytes of a row list (`SUM(file_size)`). -/
def sumSizes (rows : List ScreenshotRecord) : Int :=
  (rows.map (fun r => r.file_size)).sum

/-! ## Theorems -/

/-- C3: in `build_timeline_cards`, with `fallback = max(1, interval)`
and `max_gap = max(30, 2 * fallback)`, a sample followed by a strictly
later sample gets segment duration `min(next - start, max_gap)` (so
its end is `start + min(next - start, max_gap)`), and the last sample
of the sequence gets segment duration `fallback_interval` (its end is
`start + fallback_interval`). -/
theorem c3_segment_end (start next fbs : Int) (hlt : start < next) :
    _segment_duration_seconds start (some next) (fallbackOf fbs)
        (maxGapOf (fallbackOf fbs)) =
      min (next - start) (maxGapOf (fallbackOf fbs)) ∧
    _segment_duration_seconds start none (fallbackOf fbs)
        (maxGapOf (fallbackOf fbs)) = fallbackOf fbs := by
  refine ⟨?_, rfl⟩
  unfold _segment_duration_seconds
  have h1 : ¬ (next - start ≤ 0) := by omega
  simp only [h1, if_false]

/-- Witness for C3 at `start = 0`, `next = 10`, interval 10. -/
theorem c3_witness :
    (0 : Int) < 10 ∧
    (_segment_duration_seconds 0 (some 10) (fallbackOf 10)
          (maxGapOf (fallbackOf 10)) =
        min (10 - 0) (maxGapOf (fallbackOf 10)) ∧
      _segment_duration_seconds 0 none (fallbackOf 10)
          (maxGapOf (fallbackOf 10)) = fallbackOf 10) :=
  ⟨by decide, c3_segment_end 0 10 10 (by decide)⟩

/-- C4: a sample extends the open segment iff its normalized key
equals the open segment's key and its start is at most the open
segment's end plus the 5-second merge tolerance; a merge sets the end
to `max(current end, new end)` (never smaller than before) and grows
the member count by one; and three same-key samples at t = 0, 10, 20
with interval 10 collapse to one segment with `screenshot_count = 3`
and `duration_seconds = 30`. -/
theorem c4_merge_rule :
    (∀ (fallback max_gap : Int) (record : ScreenshotRecord)
        (rest : List ScreenshotRecord) (g : SegGroup) (gs : List SegGroup),
      buildGroupsAux fallback max_gap (record :: rest) (g :: gs) =
        if sampleKey record = g.key ∧
            record.captured_at ≤ g.stop + mergeTolerance then
          buildGroupsAux fallback max_gap rest
            (mergedGroup g (sampleEnd record rest fallback max_gap) :: gs)
        else
          buildGroupsAux fallback max_gap rest
            (freshGroup record rest fallback max_gap :: g :: gs)) ∧
    (∀ (g : SegGroup) (stop : Int),
      g.stop ≤ (mergedGroup g stop).stop ∧
      (mergedGroup g stop).stop = max g.stop stop ∧
      (mergedGroup g stop).screenshot_count = g.screenshot_count + 1) ∧
    build_timeline_cards [mkSample 1 0, mkSample 2 10, mkSample 3 20] 10 =
      [{ start := 0, stop := 30, duration_seconds := 30,
         process_name := ("app").toList, window_title := ("win").toList,
         screenshot_count := 3 }] :=
  ⟨fun _ _ _ _ _ _ => rfl,
   fun g stop => ⟨le_max_left g.stop stop, rfl, rfl⟩,
   by decide⟩

/-- C5: two same-key samples at t = 0 and t = 600 with interval 10
(`max_gap = 30`) produce exactly two segments, and the first segment's
duration is the clamped 30 seconds, not 600. -/
theorem c5_gap_clamped :
    build_timeline_cards [mkSample 1 0, mkSample 2 600] 10 =
      [{ start := 0, stop := 30, duration_seconds := 30,
         process_name := ("app").toList, window_title := ("win").toList,
         screenshot_count := 1 },
       { start := 600, stop := 610, duration_seconds := 10,
         process_name := ("app").toList, window_title := ("win").toList,
         screenshot_count := 1 }] ∧
    (build_timeline_cards [mkSample 1 0, mkSample 2 600] 10).length = 2 ∧
    (build_timeline_cards [mkSample 1 0, mkSample 2 600] 10).map
        (fun c => c.duration_seconds) = [30, 10] := by
  refine ⟨by decide, by decide, by decide⟩

theorem insertCardRows_day (day : PyStr) :
    ∀ (n : Nat) (cs : List CardInput) (r : CardRow),
      r ∈ insertCardRows day n cs → r.day = day := by
  intro n cs
  induction cs generalizing n with
  | nil => intro r hr; simp [insertCardRows] at hr
  | cons c rest ih =>
    intro r hr
    simp only [insertCardRows, List.mem_cons] at hr
    cases hr with
    | inl h => rw [h]; rfl
    | inr h => exact ih (n + 1) r h

theorem insertCardRows_fields (day : PyStr) :
    ∀ (n : Nat) (cs : List CardInput),
      (insertCardRows day n cs).map (cardFields ∘ rowToCard) =
        cs.map stripFields := by
  intro n cs
  induction cs generalizing n with
  | nil => rfl
  | cons c rest ih =>
    simp only [insertCardRows, List.map_cons, ih]
    rfl

/-- C1: after `replace_ai_timeline_for_day(d, cs, s)`, reading the
cards for `d` with `list_ai_timeline_for_day(d)` returns exactly the
cards of `cs` compared by title/start/end/category (stated for inputs
whose compared fields are already stripped, as the analyzer produces):
the multiset of read-back projections is a permutation of the
projections of `cs` — every previously stored card for `d` is gone and
the result is never a mix of old and new cards. -/
theorem c1_replace_then_list (db : DayflowDB) (day : PyStr)
    (cs : List CardInput) (s now : PyStr)
    (h : ∀ c ∈ cs, pyStrip c.start = c.start ∧ pyStrip c.stop = c.stop ∧
          pyStrip c.title = c.title ∧ pyStrip c.category = c.category) :
    ((list_ai_timeline_for_day (replace_ai_timeline_for_day db day cs s now)
          day).map cardFields).Perm (cs.map inputFields) := by
  have hfilter :
      (replace_ai_timeline_for_day db day cs s now).ai_timeline_cards.filter
          (fun r => r.day = day) = insertCardRows day db.next_card_id cs := by
    show ((db.ai_timeline_cards.filter (fun r => r.day ≠ day)) ++
        insertCardRows day db.next_card_id cs).filter (fun r => r.day = day) =
      insertCardRows day db.next_card_id cs
    rw [List.filter_append]
    have h1 : (db.ai_timeline_cards.filter (fun r => r.day ≠ day)).filter
        (fun r => r.day = day) = [] := by
      refine List.filter_eq_nil_iff.mpr ?_
      intro a ha
      rcases List.mem_filter.mp ha with ⟨_, hne⟩
      simp only [decide_eq_true_eq] at hne ⊢
      exact hne
    have h2 : (insertCardRows day db.next_card_id cs).filter
        (fun r => r.day = day) = insertCardRows day db.next_card_id cs := by
      refine List.filter_eq_self.mpr ?_
      intro a ha
      simp only [decide_eq_true_eq]
      exact insertCardRows_day day db.next_card_id cs a ha
    rw [h1, h2, List.nil_append]
  unfold list_ai_timeline_for_day
  rw [hfilter, List.map_map]
  have h3 : (insertCardRows day db.next_card_id cs).map
      (cardFields ∘ rowToCard) = cs.map inputFields := by
    rw [insertCardRows_fields]
    refine List.map_congr_left ?_
    intro c hc
    rcases h c hc with ⟨hs, he, ht, hk⟩
    unfold stripFields inputFields
    rw [hs, he, ht, hk]
  rw [← h3]
  exact (List.perm_insertionSort cardRowLe _).map _

/-- Witness for C1: one normalized card written into an empty
database and read back. -/
theorem c1_witness :
    (∀ c ∈ [cardW], pyStrip c.start = c.start ∧ pyStrip c.stop = c.stop ∧
        pyStrip c.title = c.title ∧ pyStrip c.category = c.category) ∧
    ((list_ai_timeline_for_day
          (replace_ai_timeline_for_day emptyDB dayA [cardW] (("x").toList) [])
          dayA).map cardFields).Perm ([cardW].map inputFields) :=
  ⟨by decide,
   c1_replace_then_list emptyDB dayA [cardW] (("x").toList) [] (by decide)⟩

/-- C10: `replace_ai_timeline_for_day(d, cs, s)` modifies only data
keyed by day `d`: for every other day `d2 ≠ d`, both the timeline
cards read back for `d2` and the stored daily summary of `d2` are
unchanged. -/
theorem c10_replace_other_days (db : DayflowDB) (day : PyStr)
    (cs : List CardInput) (s now d2 : PyStr) (hne : d2 ≠ day) :
    list_ai_timeline_for_day (replace_ai_timeline_for_day db day cs s now) d2 =
      list_ai_timeline_for_day db d2 ∧
    get_ai_daily_summary (replace_ai_timeline_for_day db day cs s now) d2 =
      get_ai_daily_summary db d2 := by
  constructor
  · unfold list_ai_timeline_for_day
    have hf : (replace_ai_timeline_for_day db day cs s now).ai_timeline_cards.filter
        (fun r => r.day = d2) = db.ai_timeline_cards.filter (fun r => r.day = d2) := by
      show ((db.ai_timeline_cards.filter (fun r => r.day ≠ day)) ++
          insertCardRows day db.next_card_id cs).filter (fun r => r.day = d2) =
        db.ai_timeline_cards.filter (fun r => r.day = d2)
      rw [List.filter_append]
      have h1 : (insertCardRows day db.next_card_id cs).filter
          (fun r => r.day = d2) = [] := by
        refine List.filter_eq_nil_iff.mpr ?_
        intro a ha
        have hd := insertCardRows_day day db.next_card_id cs a ha
        simp only [decide_eq_true_eq]
        rw [hd]
        exact fun hh => hne hh.symm
      have h2 : (db.ai_timeline_cards.filter (fun r => r.day ≠ day)).filter
          (fun r => r.day = d2) = db.ai_timeline_cards.filter (fun r => r.day = d2) := by
        rw [List.filter_filter]
        refine List.filter_congr ?_
        intro a _
        by_cases hd : a.day = d2
        · simp [hd, hne]
        · simp [hd]
      rw [h1, h2, List.append_nil]
    rw [hf]
  · unfold get_ai_daily_summary replace_ai_timeline_for_day
    simp only [if_neg hne]

/-- Witness for C10 at two distinct concrete days. -/
theorem c10_witness :
    dayB ≠ dayA ∧
    (list_ai_timeline_for_day
        (replace_ai_timeline_for_day emptyDB dayA [cardW] (("x").toList) [])
        dayB =
      list_ai_timeline_for_day emptyDB dayB ∧
    get_ai_daily_summary
        (replace_ai_timeline_for_day emptyDB dayA [cardW] (("x").toList) [])
        dayB =
      get_ai_daily_summary emptyDB dayB) :=
  ⟨by decide,
   c10_replace_other_days emptyDB dayA [cardW] (("x").toList) [] dayB (by decide)⟩

theorem dropOldest_spec (max_bytes : Int) (hmax : 0 ≤ max_bytes) :
    ∀ (rows : List ScreenshotRecord) (current : Int),
      current = sumSizes rows → (∀ r ∈ rows, 0 ≤ r.file_size) →
      (dropOldest max_bytes rows current).1 =
          rows.drop (dropOldest max_bytes rows current).2.1 ∧
        sumSizes (dropOldest max_bytes rows current).1 ≤ max_bytes := by
  intro rows
  induction rows with
  | nil =>
    intro current _ _
    refine ⟨rfl, ?_⟩
    simpa [dropOldest, sumSizes] using hmax
  | cons r rest ih =>
    intro current hc hnn
    by_cases hcur : current ≤ max_bytes
    · refine ⟨?_, ?_⟩
      · show (dropOldest max_bytes (r :: rest) current).1 = _
        simp only [dropOldest, if_pos hcur]
        rfl
      · simp only [dropOldest, if_pos hcur]
        rw [← hc]
        exact hcur
    · have hsum : sumSizes (r :: rest) = r.file_size + sumSizes rest := by
        simp [sumSizes]
      have hc' : current - r.file_size = sumSizes rest := by omega
      have ihout := ih (current - r.file_size) hc'
        (fun x hx => hnn x (List.mem_cons_of_mem r hx))
      refine ⟨?_, ?_⟩
      · simp only [dropOldest, if_neg hcur]
        rw [List.drop_succ_cons]
        exact ihout.1
      · simp only [dropOldest, if_neg hcur]
        exact ihout.2

/-- C2: `enforce_storage_limit(max_bytes)` with `max_bytes ≤ 0` is a
no-op returning `(0, 0)`; with `max_bytes > 0` (and non-negative
stored sizes) the remaining total media bytes are at most `max_bytes`,
and the deletion removed exactly the `k` oldest rows in `captured_at`
order (the remaining rows are, as a multiset, the sorted sequence with
its first `k` entries dropped, and `removed_count = k`).  With
non-negative sizes the "delete everything" fallback of the claim can
never be needed: emptying the table always reaches total `0 ≤
max_bytes`. -/
theorem c2_enforce_storage_limit (db : DayflowDB) (max_bytes : Int)
    (hnn : ∀ r ∈ db.screenshots, 0 ≤ r.file_size) :
    (max_bytes ≤ 0 → enforce_storage_limit db max_bytes = (db, 0, 0)) ∧
    (0 < max_bytes →
      total_screenshot_bytes (enforce_storage_limit db max_bytes).1 ≤ max_bytes ∧
      ∃ k, ((enforce_storage_limit db max_bytes).1.screenshots).Perm
            ((List.insertionSort shotLe db.screenshots).drop k) ∧
          (enforce_storage_limit db max_bytes).2.1 = k) := by
  constructor
  · intro h
    unfold enforce_storage_limit
    rw [if_pos h]
  · intro hpos
    have hneg : ¬ max_bytes ≤ 0 := by omega
    by_cases hcur : (db.screenshots.map (fun r => r.file_size)).sum ≤ max_bytes
    · have he : enforce_storage_limit db max_bytes = (db, 0, 0) := by
        simp only [enforce_storage_limit, if_neg hneg, if_pos hcur]
      rw [he]
      refine ⟨hcur, 0, ?_, rfl⟩
      rw [List.drop_zero]
      exact (List.perm_insertionSort shotLe db.screenshots).symm
    · have hsorted_perm := List.perm_insertionSort shotLe db.screenshots
      have hsum_eq : sumSizes (List.insertionSort shotLe db.screenshots) =
          (db.screenshots.map (fun r => r.file_size)).sum := by
        show (List.map (fun r => r.file_size)
            (List.insertionSort shotLe db.screenshots)).sum = _
        exact (hsorted_perm.map (fun r => r.file_size)).sum_eq
      have hnn' : ∀ r ∈ List.insertionSort shotLe db.screenshots, 0 ≤ r.file_size :=
        fun r hr => hnn r (hsorted_perm.mem_iff.mp hr)
      have hspec := dropOldest_spec max_bytes (le_of_lt hpos)
        (List.insertionSort shotLe db.screenshots)
        ((db.screenshots.map (fun r => r.file_size)).sum)
        (by rw [hsum_eq]) hnn'
      have he : enforce_storage_limit db max_bytes =
          ({ db with screenshots :=
              (dropOldest max_bytes (List.insertionSort shotLe db.screenshots)
                ((db.screenshots.map (fun r => r.file_size)).sum)).1 },
            (dropOldest max_bytes (List.insertionSort shotLe db.screenshots)
              ((db.screenshots.map (fun r => r.file_size)).sum)).2.1,
            (dropOldest max_bytes (List.insertionSort shotLe db.screenshots)
              ((db.screenshots.map (fun r => r.file_size)).sum)).2.2) := by
        simp only [enforce_storage_limit, if_neg hneg, if_neg hcur]
      rw [he]
      refine ⟨hspec.2, _, ?_, rfl⟩
      rw [← hspec.1]

/-- Witness for C2: three 5-byte screenshots against a 7-byte budget
(the two oldest rows must go). -/
theorem c2_witness :
    (∀ r ∈ dbShots.screenshots, (0 : Int) ≤ r.file_size) ∧
    (((7 : Int) ≤ 0 → enforce_storage_limit dbShots 7 = (dbShots, 0, 0)) ∧
      (0 < (7 : Int) →
        total_screenshot_bytes (enforce_storage_limit dbShots 7).1 ≤ 7 ∧
        ∃ k, ((enforce_storage_limit dbShots 7).1.screenshots).Perm
              ((List.insertionSort shotLe dbShots.screenshots).drop k) ∧
            (enforce_storage_limit dbShots 7).2.1 = k)) :=
  ⟨by decide, c2_enforce_storage_limit dbShots 7 (by decide)⟩

/-- C9 counterexample: the claim says the effective interval is
clamped into `[1, 300]`, but `ScreenCaptureService.start` computes
only `max(1.0, interval_seconds)` — a configured interval of 1000
seconds stays 1000, above the claimed 300-second ceiling.  (The
`[2, 300]` clamp lives in the UI's `_current_interval`, outside the
service.) -/
theorem c9_counterexample :
    start_effective_interval 1000 = 1000 ∧
    ¬ (start_effective_interval 1000 ≤ 300) := by
  have h : start_effective_interval 1000 = 1000 := by
    unfold start_effective_interval
    rw [max_eq_right (by norm_num : (1 : ℚ) ≤ 1000)]
  refine ⟨h, ?_⟩
  rw [h]
  norm_num

/-- C9 (amended): before the capture loop starts,
`ScreenCaptureService.start` clamps the configured interval only from
below — the effective interval is `max(1, configured)`, hence always
at least 1 second, and values above 300 seconds are not reduced (there
is no upper clamp in the service). -/
theorem c9_interval_clamped_below (interval_seconds : ℚ) :
    1 ≤ start_effective_interval interval_seconds ∧
    (300 < interval_seconds → 300 < start_effective_interval interval_seconds) :=
  ⟨le_max_left 1 interval_seconds,
   fun h => lt_of_lt_of_le h (le_max_right 1 interval_seconds)⟩

/-- Witness for the amended C9 at a configured interval of 301 s. -/
theorem c9_witness :
    (300 : ℚ) < 301 ∧ 1 ≤ start_effective_interval 301 ∧
      300 < start_effective_interval 301 :=
  ⟨by norm_num, (c9_interval_clamped_below 301).1,
   (c9_interval_clamped_below 301).2 (by norm_num)⟩

/-- C6 (code-bug evidence): a card with `start="09:00"`,
`end="09:30"`, `title="Work"` normalizes through unchanged (category
defaulting to `"Other"`), and a card with `start="bad"` is dropped
while its valid sibling survives — but a card whose start is
`"12:3:"` (length 5, `value[2] == ':'`, all non-colon characters
digits, second colon at index 4) makes `int(value[3:])` raise an
uncaught `ValueError` inside `_norm_hhmm`, aborting the whole batch
and losing the valid sibling, where the claim requires the failing
card to be dropped without affecting siblings. -/
theorem c6_normalize_cards_crash :
    _normalize_cards (Json.arr [validCard]) = .ok [validCardOut] ∧
    _normalize_cards (Json.arr [badCard, validCard]) = .ok [validCardOut] ∧
    _normalize_cards (Json.arr [validCard, crashCard]) =
      .error (("ValueError").toList) :=
  ⟨rfl, rfl, rfl⟩

theorem parse_ai_json_eq (text : PyStr) :
    _parse_ai_json text =
      if pyStrip text = [] then
        Except.error (("AI response was empty.").toList)
      else
        match json_loads (pyStrip text) with
        | some j => Except.ok j
        | none =>
          if pyFindChar (pyStrip text) lbrace = -1 ∨
              pyRFindChar (pyStrip text) rbrace = -1 ∨
              pyFindChar (pyStrip text) lbrace ≥
                pyRFindChar (pyStrip text) rbrace then
            Except.error (("AI response did not contain valid JSON.").toList)
          else
            match json_loads (pySlice (pyStrip text)
                (pyFindChar (pyStrip text) lbrace).toNat
                ((pyRFindChar (pyStrip text) rbrace).toNat + 1)) with
            | some j => Except.ok j
            | none =>
              Except.error (("AI response contained invalid JSON.").toList) :=
  rfl

/-- C7: `_parse_ai_json` fails on whitespace-only input; whenever it
returns a parsed object, that object came either from parsing the
trimmed text directly or from parsing the substring between the first
`'\x7b'` and the last `'\x7d'` (the prose-tolerant fallback) — it
never fabricates a result; and the spec's example raw text parses to
an object whose `daily_summary` is `"ok"`. -/
theorem c7_parse_ai_json :
    (∀ text : PyStr, pyStrip text = [] →
      _parse_ai_json text = .error (("AI response was empty.").toList)) ∧
    (∀ (text : PyStr) (j : Json), _parse_ai_json text = .ok j →
      json_loads (pyStrip text) = some j ∨
        json_loads (braceSlice (pyStrip text)) = some j) ∧
    _parse_ai_json exampleText = .ok exampleParsed ∧
    generate_daily_summary exampleParsed = ("ok").toList := by
  refine ⟨?_, ?_, rfl, rfl⟩
  · intro text h
    rw [parse_ai_json_eq, if_pos h]
  · intro text j h
    rw [parse_ai_json_eq] at h
    split at h
    · exact absurd h (by simp)
    · split at h
      next jv heq =>
        left
        injection h with h2
        rw [← h2]
        exact heq
      next heq =>
        split at h
        · exact absurd h (by simp)
        · split at h
          next jv2 heq2 =>
            right
            injection h with h2
            rw [← h2]
            exact heq2
          next heq2 => exact absurd h (by simp)

/-- Witness for C7: the empty raw text errors, and the example text's
result is justified by the brace-slice fallback parse. -/
theorem c7_witness :
    _parse_ai_json [] = .error (("AI response was empty.").toList) ∧
    (json_loads (pyStrip exampleText) = some exampleParsed ∨
      json_loads (braceSlice (pyStrip exampleText)) = some exampleParsed) :=
  ⟨c7_parse_ai_json.1 [] rfl,
   c7_parse_ai_json.2.1 exampleText exampleParsed (by rfl)⟩

theorem everyNthAux_sublist {α : Type} (k : Nat) :
    ∀ (fuel : Nat) (xs : List α), (everyNthAux k fuel xs).Sublist xs := by
  intro fuel
  induction fuel with
  | zero => intro xs; cases xs <;> simp [everyNthAux]
  | succ f ih =>
    intro xs
    cases xs with
    | nil => simp [everyNthAux]
    | cons x rest =>
      show (x :: everyNthAux k f (rest.drop (k - 1))).Sublist (x :: rest)
      exact List.cons_sublist_cons.mpr
        ((ih (rest.drop (k - 1))).trans (List.drop_sublist (k - 1) rest))

theorem everyNthAux_ne_nil {α : Type} (k f : Nat) (xs : List α)
    (hf : 1 ≤ f) (hxs : xs ≠ []) : everyNthAux k f xs ≠ [] := by
  cases f with
  | zero => omega
  | succ f2 =>
    cases xs with
    | nil => exact absurd rfl hxs
    | cons x rest => simp [everyNthAux]

theorem everyNth_two_le {α : Type} (xs : List α) (k : Nat) (hk : 1 ≤ k)
    (hlen : k < xs.length) : 2 ≤ (everyNth xs k).length := by
  cases xs with
  | nil => simp at hlen
  | cons x rest =>
    simp only [List.length_cons] at hlen
    have h1 : everyNthAux k rest.length (rest.drop (k - 1)) ≠ [] := by
      apply everyNthAux_ne_nil
      · omega
      · intro hd
        have hlen2 : (rest.drop (k - 1)).length = rest.length - (k - 1) :=
          List.length_drop (k - 1) rest
        rw [hd] at hlen2
        simp only [List.length_nil] at hlen2
        omega
    have h2 : 0 < (everyNthAux k rest.length (rest.drop (k - 1))).length :=
      List.length_pos.mpr h1
    show 2 ≤ (x :: everyNthAux k rest.length (rest.drop (k - 1))).length
    simp only [List.length_cons]
    omega

theorem everyNth_head {α : Type} (x : α) (rest : List α) (k : Nat) :
    (everyNth (x :: rest) k).head? = some x := rfl

theorem head?_take_of_pos {α : Type} (l : List α) (n : Nat) (hn : 0 < n) :
    (l.take n).head? = l.head? := by
  rw [List.head?_take, if_neg (by omega)]

theorem head?_dropLast_of_two_le {α : Type} (l : List α) (h : 2 ≤ l.length) :
    l.dropLast.head? = l.head? := by
  cases l with
  | nil => simp at h
  | cons a t =>
    cases t with
    | nil => simp at h
    | cons b t2 => rw [List.dropLast_cons₂]; rfl

theorem cons_sublist_cons_tail {α : Type} {a b : α} {u v : List α}
    (h : (a :: u).Sublist (b :: v)) : u.Sublist v := by
  cases h with
  | cons _ h2 => exact (List.sublist_cons_self a u).trans h2
  | cons₂ _ h2 => exact h2

theorem concat_sublist_concat_init {α : Type} {a b : α} {u v : List α}
    (h : (u ++ [a]).Sublist (v ++ [b])) : u.Sublist v := by
  have h2 := List.reverse_sublist.mpr h
  rw [List.reverse_append, List.reverse_append] at h2
  simp only [List.reverse_singleton, List.singleton_append] at h2
  exact List.reverse_sublist.mp (cons_sublist_cons_tail h2)

theorem dropLast_append_getLast?_eq {α : Type} {l : List α} {a : α}
    (h : l.getLast? = some a) : l.dropLast ++ [a] = l := by
  have hne : l ≠ [] := by intro he; rw [he] at h; simp at h
  have h2 := (List.getLast?_eq_getLast l hne).symm.trans h
  injection h2 with h3
  rw [← h3]
  exact List.dropLast_append_getLast hne

theorem lastFix_eq_of_getLast? {t rows : List ScreenshotRecord}
    {sl rl : ScreenshotRecord}
    (hsl : t.getLast? = some sl) (hrl : rows.getLast? = some rl) :
    lastFix t rows = if sl.id ≠ rl.id then t.dropLast ++ [rl] else t := by
  unfold lastFix
  rw [hsl, hrl]

theorem lastFix_spec (rows t : List ScreenshotRecord)
    (hnd : (rows.map (fun r => r.id)).Nodup) (hrows : rows ≠ [])
    (hsub : t.Sublist rows) (hlen2 : 2 ≤ t.length) (hlen20 : t.length ≤ 20)
    (hhead : t.head? = rows.head?) :
    (lastFix t rows).length ≤ 20 ∧ (lastFix t rows).Sublist rows ∧
      (lastFix t rows).head? = rows.head? ∧
      (lastFix t rows).getLast? = rows.getLast? := by
  have htne : t ≠ [] := by intro he; rw [he] at hlen2; simp at hlen2
  obtain ⟨sl, hsl⟩ := Option.isSome_iff_exists.mp (List.getLast?_isSome.mpr htne)
  obtain ⟨rl, hrl⟩ := Option.isSome_iff_exists.mp (List.getLast?_isSome.mpr hrows)
  rw [lastFix_eq_of_getLast? hsl hrl, hrl]
  by_cases hid : sl.id = rl.id
  · rw [if_neg (by simpa using hid)]
    have hteq := dropLast_append_getLast?_eq hsl
    have hslt : sl ∈ t := by
      rw [← hteq]; exact List.mem_append_right _ (List.mem_singleton_self sl)
    have hrleq := dropLast_append_getLast?_eq hrl
    have hrlmem : rl ∈ rows := by
      rw [← hrleq]; exact List.mem_append_right _ (List.mem_singleton_self rl)
    have hslrows : sl ∈ rows := List.Sublist.mem hslt hsub
    have heq : sl = rl := List.inj_on_of_nodup_map hnd hslrows hrlmem hid
    exact ⟨hlen20, hsub, hhead, by rw [hsl, heq]⟩
  · rw [if_pos hid]
    have hteq := dropLast_append_getLast?_eq hsl
    have hrlrows := dropLast_append_getLast?_eq hrl
    refine ⟨?_, ?_, ?_, ?_⟩
    · rw [List.length_append, List.length_dropLast]
      simp only [List.length_singleton]
      omega
    · have hs : (t.dropLast ++ [sl]).Sublist (rows.dropLast ++ [rl]) := by
        rw [hteq, hrlrows]; exact hsub
      have hinit : t.dropLast.Sublist rows.dropLast :=
        concat_sublist_concat_init hs
      have happ := hinit.append_right [rl]
      rw [hrlrows] at happ
      exact happ
    · rw [List.head?_append, head?_dropLast_of_two_le t hlen2, hhead]
      obtain ⟨y, hy⟩ : ∃ y, rows.head? = some y := by
        cases rows with
        | nil => exact absurd rfl hrows
        | cons a l => exact ⟨a, rfl⟩
      rw [hy]
      rfl
    · rw [List.getLast?_concat]

/-- C8: `_sample_screenshots` with the cap of 20 used by
`AITimelineGenerator.generate` returns any list of at most 20 samples
unchanged; a longer list is deterministically reduced to a stride
subsequence of at most 20 elements that starts with the first sample
and ends with the last sample (stated under the database invariant
that row ids are distinct). -/
theorem c8_sample_screenshots (rows : List ScreenshotRecord)
    (hnd : (rows.map (fun r => r.id)).Nodup) :
    (rows.length ≤ 20 → _sample_screenshots rows 20 = rows) ∧
    (20 < rows.length →
      (_sample_screenshots rows 20).length ≤ 20 ∧
      (_sample_screenshots rows 20).Sublist rows ∧
      (_sample_screenshots rows 20).head? = rows.head? ∧
      (_sample_screenshots rows 20).getLast? = rows.getLast?) := by
  constructor
  · intro h
    unfold _sample_screenshots
    rw [if_pos h]
  · intro hlen
    have hne20 : ¬ rows.length ≤ 20 := by omega
    have hrows_ne : rows ≠ [] := by
      intro he; rw [he] at hlen; simp at hlen
    have hres : _sample_screenshots rows 20 =
        lastFix
          (if 20 < (everyNth rows (max 1 (rows.length / 20))).length then
            (everyNth rows (max 1 (rows.length / 20))).take 20
          else everyNth rows (max 1 (rows.length / 20))) rows := by
      unfold _sample_screenshots
      rw [if_neg hne20]
    rw [hres]
    have hk1 : 1 ≤ max 1 (rows.length / 20) := le_max_left _ _
    have hkn : max 1 (rows.length / 20) < rows.length := by
      rw [Nat.max_lt]
      exact ⟨by omega, Nat.div_lt_self (by omega) (by omega)⟩
    have hsub0 : (everyNth rows (max 1 (rows.length / 20))).Sublist rows :=
      everyNthAux_sublist _ _ _
    have h2le : 2 ≤ (everyNth rows (max 1 (rows.length / 20))).length :=
      everyNth_two_le rows _ hk1 hkn
    have hhead0 : (everyNth rows (max 1 (rows.length / 20))).head? = rows.head? := by
      cases rows with
      | nil => exact absurd rfl hrows_ne
      | cons x rest => exact everyNth_head x rest _
    set s0 := everyNth rows (max 1 (rows.length / 20)) with hs0
    set t := if 20 < s0.length then s0.take 20 else s0 with ht
    have hsubt : t.Sublist rows := by
      rw [ht]; split
      · exact (List.take_sublist 20 s0).trans hsub0
      · exact hsub0
    have hlent : t.length ≤ 20 := by
      rw [ht]; split
      · rw [List.length_take]; exact min_le_left _ _
      · next h => omega
    have hlent2 : 2 ≤ t.length := by
      rw [ht]; split
      · next h => rw [List.length_take]; exact Nat.le_min.mpr ⟨by omega, by omega⟩
      · exact h2le
    have hheadt : t.head? = rows.head? := by
      rw [ht]; split
      · rw [head?_take_of_pos s0 20 (by omega)]; exact hhead0
      · exact hhead0
    exact lastFix_spec rows t hnd hrows_ne hsubt hlent2 hlent hheadt

/-- Witness for C8: twenty-one distinct-id samples are reduced to 20
keeping the first and last. -/
theorem c8_witness :
    (wrows.map (fun r => r.id)).Nodup ∧
    ((_sample_screenshots wrows 20).length ≤ 20 ∧
      (_sample_screenshots wrows 20).Sublist wrows ∧
      (_sample_screenshots wrows 20).head? = wrows.head? ∧
      (_sample_screenshots wrows 20).getLast? = wrows.getLast?) :=
  ⟨by decide, (c8_sample_screenshots wrows (by decide)).2 (by decide)⟩

end Dayflow
